import Mathlib

/-!
Shallow embedding of the snec configuration-table library:
the Handle/Receiver runtime (src/handle.rs, src/receiver.rs) and the
`#[derive(ConfigTable)]` expansion pipeline
(macros/src/drv_config_table/mod.rs, macros/src/drv_config_table/misc.rs,
with the legacy snapshot macros/src/drv_config_table.rs modelled separately).
-/

namespace Snec

/-! ## Runtime model (src/handle.rs)

A `Handle` pairs a mutable reference to a field's storage with an owned
receiver.  The receiver is observed only through its `receive` calls, so we
model the pair as the stored value together with the ordered list of values
the receiver has been notified with. -/

/-- State of a `Handle`: the pointee (`target`) and the receiver, observed as
the ordered log of values passed to `Receiver::receive`. -/
structure HandleState (α : Type) where
  target : α
  notified : List α
deriving Repr, DecidableEq

/-- `Handle::set`: `*self.target = new_value; self.receiver.receive(self.target)`.
The assignment happens first; the notification reads the freshly assigned
target. -/
def Handle.set {α : Type} (h : HandleState α) (newValue : α) : HandleState α :=
  let t := newValue
  { target := t, notified := h.notified ++ [t] }

/-- `Handle::modify_with`: `f(&mut self.target); self.receiver.receive(self.target)`. -/
def Handle.modifyWith {α : Type} (h : HandleState α) (f : α → α) : HandleState α :=
  let t := f h.target
  { target := t, notified := h.notified ++ [t] }

/-- `Handle::set_silently`: `*self.target = new_value` with no `receive` call. -/
def Handle.setSilently {α : Type} (h : HandleState α) (newValue : α) : HandleState α :=
  { target := newValue, notified := h.notified }

/-- `Handle::modify_silently` returns `&mut E::Data`; `f` stands for whatever
writes the caller performs through that reference, which touch only the
target and never the receiver. -/
def Handle.modifySilently {α : Type} (h : HandleState α) (f : α → α) : HandleState α :=
  { target := f h.target, notified := h.notified }

/-- `Handle::modify_silently_with`: `f(&mut self.target)` with no `receive` call. -/
def Handle.modifySilentlyWith {α : Type} (h : HandleState α) (f : α → α) : HandleState α :=
  { target := f h.target, notified := h.notified }

/-- How control leaves a `ModificationScope`'s lexical scope.  Rust runs
`Drop::drop` exactly once on each of these paths. -/
inductive ExitKind where
  | normal
  | earlyReturn
  | unwind
deriving Repr, DecidableEq

/-- The value of the field after a sequence of in-place mutations performed
through the scope's `DerefMut` view. -/
def scopeFinal {α : Type} (v : α) (muts : List (α → α)) : α :=
  muts.foldl (fun a f => f a) v

/-- `Handle::modify` followed by the scope's lifetime: the caller mutates the
target through the `ModificationScope`'s mutable view (`muts`), then the scope
is exited via `exit`.  `ModificationScope::drop`
(`self.handle.receiver.receive(self.handle.target)`) runs exactly once on
every exit path — Rust drop glue runs for normal exit, early return and
unwinding alike — so the notification does not depend on `exit`. -/
def runModificationScope {α : Type} (h : HandleState α) (muts : List (α → α))
    (_exit : ExitKind) : HandleState α :=
  let t := scopeFinal h.target muts
  { target := t, notified := h.notified ++ [t] }

/-- The complete set of mutating operations a `Handle` offers
(src/handle.rs); `Receiver::receive` is called from nowhere else in the
runtime. -/
inductive HandleOp (α : Type) where
  | set (v : α)
  | modifyWith (f : α → α)
  | modifyScoped (muts : List (α → α)) (exit : ExitKind)
  | setSilently (v : α)
  | modifySilently (f : α → α)
  | modifySilentlyWith (f : α → α)

/-- Running one handle operation on a handle state. -/
def HandleOp.apply {α : Type} : HandleOp α → HandleState α → HandleState α
  | .set v, h => Handle.set h v
  | .modifyWith f, h => Handle.modifyWith h f
  | .modifyScoped muts exit, h => runModificationScope h muts exit
  | .setSilently v, h => Handle.setSilently h v
  | .modifySilently f, h => Handle.modifySilently h f
  | .modifySilentlyWith f, h => Handle.modifySilentlyWith h f

/-- The notifications an operation issues, as a function of the pre-state
target.  Notifying operations issue exactly one, carrying the
post-operation value, with no comparison against the previous value; silent
operations issue none. -/
def HandleOp.notifications {α : Type} : HandleOp α → α → List α
  | .set v, _ => [v]
  | .modifyWith f, t => [f t]
  | .modifyScoped muts _, t => [scopeFinal t muts]
  | .setSilently _, _ => []
  | .modifySilently _, _ => []
  | .modifySilentlyWith _, _ => []

/-! ## Derive-macro model (macros/src/drv_config_table/mod.rs and misc.rs)

Identifiers are modelled as a name plus a source span; paths as an optional
leading `::` plus a segment list.  Receiver expressions, receiver types and
entry-module attribute tokens are opaque token strings — the pipeline only
stores and copies them. -/

/-- `proc_macro2::Ident`: a name and its source span (spans modelled as
numbers, `Span::call_site()` as `0`). -/
structure MIdent where
  name : String
  span : Nat
deriving Repr, DecidableEq

/-- `syn::Path`: optional leading double-colon plus identifier segments
(argument-less segments only, which is all the pipeline builds). -/
structure MPath where
  leadingColon : Bool
  segments : List MIdent
deriving Repr, DecidableEq

/-- Receiver constructor expression, kept as an opaque token string. -/
abbrev RExpr := String

/-- Receiver (or field) type, kept as an opaque token string. -/
abbrev RType := String

/-- Attribute tokens appended to the generated entry module, kept opaque. -/
abbrev MAttrTok := String

/-- `syn::Visibility` as resolved by the pipeline: `Inherited` or an explicit
visibility spec. -/
inductive MVis where
  | inherited
  | explicitVis (tokens : String)
deriving Repr, DecidableEq

/-- `misc.rs`: `concat_to_path` joins two identifiers into a two-segment path
with no leading colon. -/
def concat_to_path (x y : MIdent) : MPath :=
  { leadingColon := false, segments := [x, y] }

/-- `misc.rs`: `default_receiver_expr`, an expression path to
`::snec::EmptyReceiver`. -/
def default_receiver_expr : RExpr := "::snec::EmptyReceiver"

/-- `misc.rs`: `default_receiver_type`, the type `::snec::EmptyReceiver`. -/
def default_receiver_type : RType := "::snec::EmptyReceiver"

/-- `misc.rs`: `default_entry_module`, the identifier `entries` with call-site
span. -/
def default_entry_module : MIdent := { name := "entries", span := 0 }

/-- One command inside the body of a `#[snec(...)]` attribute, exactly the
variants matched in `derive_config_table_expand` (mod.rs); the variant
payloads are the ones the pipeline reads. -/
inductive AttributeCommand where
  | entryModule (value : MIdent)
  | entryModuleVisibility (value : MVis)
  | entryModuleAttributes (value : List MAttrTok)
  | receiver (expression : RExpr) (ty : RType)
  | entry (value : Option MIdent)
  | useEntry (value : MPath)
deriving Repr, DecidableEq

/-- A `#[snec]` attribute after `filter_to_snec_attributes`: `body = none` is
the bare `#[snec]` form, `body = some cmds` is `#[snec(cmd, ...)]`. -/
structure SnecAttribute where
  body : Option (List AttributeCommand)
deriving Repr, DecidableEq

/-- Modelled from the spec: `AttributeCommand::default()` is defined in
`ast/snec_attribute.rs`, which is absent from the sources; per the spec, a
bare (argument-less) annotation is shorthand for generating a new marker
with a default-cased name and the default receiver, i.e. an `entry` command
with no arguments — which is also what the unit test in mod.rs exhibits. -/
def attributeCommandDefault : AttributeCommand := .entry none

/-- The errors `derive_config_table_expand` (mod.rs) can raise, one
constructor per `syn::Error` site it constructs. -/
inductive DeriveError where
  | bareOnStruct
  | entryOnStruct
  | useEntryOnStruct
  | entryModuleOnField
  | entryModuleVisibilityOnField
  | entryModuleAttributesOnField
deriving Repr, DecidableEq

/-- The mutable locals of the struct-level loop in
`derive_config_table_expand` (mod.rs, lines 40-44). -/
structure StructScan where
  receiverExpr : Option RExpr := none
  receiverType : Option RType := none
  entryModule : Option MIdent := none
  entryModuleVisibility : Option MVis := none
  entryModuleAttributes : List MAttrTok := []
deriving Repr, DecidableEq

/-- The struct-level command match (mod.rs lines 57-89): singleton options
are overwritten with `Some(value)` with no duplication check; attribute
lists are extended; field-only commands raise an error. -/
def scanStructCommands : List AttributeCommand → StructScan → Except DeriveError StructScan
  | [], s => .ok s
  | c :: rest, s =>
    match c with
    | .entryModule v => scanStructCommands rest { s with entryModule := some v }
    | .entryModuleVisibility v =>
        scanStructCommands rest { s with entryModuleVisibility := some v }
    | .entryModuleAttributes v =>
        scanStructCommands rest
          { s with entryModuleAttributes := s.entryModuleAttributes ++ v }
    | .receiver e t =>
        scanStructCommands rest { s with receiverExpr := some e, receiverType := some t }
    | .entry _ => .error .entryOnStruct
    | .useEntry _ => .error .useEntryOnStruct

/-- The struct-level attribute loop (mod.rs lines 45-91): a bare `#[snec]`
on the struct is an error; otherwise each attribute's commands are scanned
in order. -/
def scanStructAttrs : List SnecAttribute → StructScan → Except DeriveError StructScan
  | [], s => .ok s
  | a :: rest, s =>
    match a.body with
    | none => .error .bareOnStruct
    | some cmds => do scanStructAttrs rest (← scanStructCommands cmds s)

/-- The resolved struct-level defaults (mod.rs lines 33-99 result tuple). -/
structure StructConfig where
  defaultReceiverExpr : RExpr
  defaultReceiverType : RType
  entryModule : MIdent
  entryModuleVisibility : MVis
  entryModuleAttributes : List MAttrTok
deriving Repr, DecidableEq

/-- Struct-level resolution: scan all struct attributes, then apply the
fallbacks from misc.rs (mod.rs lines 92-98). -/
def resolveStructLevel (attrs : List SnecAttribute) : Except DeriveError StructConfig := do
  let s ← scanStructAttrs attrs {}
  .ok { defaultReceiverExpr := s.receiverExpr.getD default_receiver_expr
        defaultReceiverType := s.receiverType.getD default_receiver_type
        entryModule := s.entryModule.getD default_entry_module
        entryModuleVisibility := s.entryModuleVisibility.getD .inherited
        entryModuleAttributes := s.entryModuleAttributes }

/-! ### Case conversion (misc.rs, `snake_to_camel`)

The Rust function folds over the characters with a `previous_was_underscore`
flag, pushing converted characters into a result string.  Characters are
modelled with `Char.toUpper` in place of `to_uppercase().next().unwrap()`;
the two agree on every character whose uppercase form is a single ASCII
character, which covers lower-case-with-underscores identifiers. -/

/-- One step of the fold in `snake_to_camel`: state is the accumulated
characters plus the `previous_was_underscore` flag (initially `true`). -/
def camel_fold_step (st : List Char × Bool) (c : Char) : List Char × Bool :=
  if c = '_' then (st.1, true)
  else (st.1 ++ [if st.2 then c.toUpper else c], false)

/-- The string-level body of `snake_to_camel` (misc.rs lines 83-94). -/
def snakeToCamelString (s : String) : String :=
  String.mk (s.data.foldl camel_fold_step ([], true)).1

/-- `misc.rs`: `snake_to_camel`, converting a `snake_case` identifier to a
`CamelCase` one while preserving its exact span. -/
def snake_to_camel (i : MIdent) : MIdent :=
  { name := snakeToCamelString i.name, span := i.span }

/-- Structural recursion equivalent of the `snake_to_camel` fold, used for
proofs. -/
def camelChars : List Char → Bool → List Char
  | [], _ => []
  | c :: rest, flag =>
    if c = '_' then camelChars rest true
    else (if flag then c.toUpper else c) :: camelChars rest false

/-- Spec-side case conversion, following the spec's words: split the name on
underscores (consecutive underscores acting as one separator, so empty
groups are dropped), capitalize the first character of each group leaving
the rest unchanged, and concatenate the groups. -/
def splitOnUnderscores : List Char → List (List Char)
  | [] => [[]]
  | c :: rest =>
    if c = '_' then [] :: splitOnUnderscores rest
    else
      match splitOnUnderscores rest with
      | g :: gs => (c :: g) :: gs
      | [] => [[c]]

/-- Capitalize the first character of a group, leaving the rest unchanged. -/
def capitalizeFirst : List Char → List Char
  | [] => []
  | c :: rest => c.toUpper :: rest

/-- The spec's description of marker-name case conversion, as a function on
strings. -/
def snakeToCamelSpecString (s : String) : String :=
  String.mk ((((splitOnUnderscores s.data).filter (fun g => g ≠ [])).map capitalizeFirst).flatten)

/-! ### Field-level processing (mod.rs lines 100-199) -/

/-- The mutable locals of the per-attribute command loop (mod.rs 112-117). -/
structure FieldScan where
  generateGetImpl : Bool := false
  customMarkerPath : Option MPath := none
  generateEntry : Bool := false
  customMarkerName : Option MIdent := none
  customReceiverExpr : Option RExpr := none
  customReceiverType : Option RType := none
deriving Repr, DecidableEq

/-- Data collected to generate one `Get` implementation for one field
(mod.rs `RequestedGetImpl`). -/
structure RequestedGetImpl where
  fieldName : MIdent
  receiverExpr : RExpr
  receiverType : RType
  markerPath : MPath
deriving Repr, DecidableEq

/-- Data collected to generate one marker type implementing `Entry` for one
field (mod.rs `RequestedGeneratedEntry`). -/
structure RequestedGeneratedEntry where
  fieldName : MIdent
  fieldType : RType
  markerName : MIdent
deriving Repr, DecidableEq

/-- The field-level command match (mod.rs lines 118-166): `entry` always
requests marker generation and an accessor, overwriting the marker path and
name only when an explicit name is given; `use_entry` requests an accessor
bound to the given path, overwriting any previous path; `receiver`
overrides the receiver; struct-only commands raise errors. -/
def scanFieldCommands (cfg : StructConfig) :
    List AttributeCommand → FieldScan → Except DeriveError FieldScan
  | [], s => .ok s
  | c :: rest, s =>
    match c with
    | .entry v =>
      let s :=
        match v with
        | some markerName =>
          { s with
            customMarkerPath := some (concat_to_path cfg.entryModule markerName)
            customMarkerName := some markerName }
        | none => s
      scanFieldCommands cfg rest { s with generateGetImpl := true, generateEntry := true }
    | .useEntry v =>
        scanFieldCommands cfg rest
          { s with generateGetImpl := true, customMarkerPath := some v }
    | .receiver e t =>
        scanFieldCommands cfg rest
          { s with customReceiverExpr := some e, customReceiverType := some t }
    | .entryModule _ => .error .entryModuleOnField
    | .entryModuleVisibility _ => .error .entryModuleVisibilityOnField
    | .entryModuleAttributes _ => .error .entryModuleAttributesOnField

/-- Processing of one `#[snec]` attribute on one field (mod.rs 104-198): a
bare attribute stands for the default command; after scanning the commands,
a marker-generation request is pushed if requested (name falling back to
the case-converted field name) and an accessor request is pushed if
requested (path falling back to the entry-module-qualified case-converted
field name, receiver falling back to the struct default). -/
def processAttr (cfg : StructConfig) (fieldIdent : MIdent) (fieldTy : RType)
    (attr : SnecAttribute) :
    Except DeriveError (List RequestedGetImpl × List RequestedGeneratedEntry) := do
  let commands :=
    match attr.body with
    | some cmds => cmds
    | none => [attributeCommandDefault]
  let s ← scanFieldCommands cfg commands {}
  let entries :=
    if s.generateEntry then
      [{ fieldName := fieldIdent
         fieldType := fieldTy
         markerName := s.customMarkerName.getD (snake_to_camel fieldIdent)
         : RequestedGeneratedEntry }]
    else []
  let impls :=
    if s.generateGetImpl then
      [{ fieldName := fieldIdent
         receiverExpr := s.customReceiverExpr.getD cfg.defaultReceiverExpr
         receiverType := s.customReceiverType.getD cfg.defaultReceiverType
         markerPath := s.customMarkerPath.getD
           (concat_to_path cfg.entryModule (snake_to_camel fieldIdent))
         : RequestedGetImpl }]
    else []
  .ok (impls, entries)

/-- One named field of the input struct, with its snec attributes already
filtered out of the attribute list. -/
structure FieldInput where
  ident : MIdent
  ty : RType
  attrs : List SnecAttribute
deriving Repr, DecidableEq

/-- The per-field attribute loop: requests accumulate across a field's
attributes in order. -/
def processField (cfg : StructConfig) (f : FieldInput) :
    Except DeriveError (List RequestedGetImpl × List RequestedGeneratedEntry) :=
  go f.attrs
where
  go : List SnecAttribute → Except DeriveError (List RequestedGetImpl × List RequestedGeneratedEntry)
    | [] => .ok ([], [])
    | a :: rest => do
      let (i1, e1) ← processAttr cfg f.ident f.ty a
      let (i2, e2) ← go rest
      .ok (i1 ++ i2, e1 ++ e2)

/-- The field loop of `derive_config_table_expand` (mod.rs 102-199):
requests accumulate across fields in declaration order. -/
def processFields (cfg : StructConfig) :
    List FieldInput → Except DeriveError (List RequestedGetImpl × List RequestedGeneratedEntry)
  | [] => .ok ([], [])
  | f :: rest => do
    let (i1, e1) ← processField cfg f
    let (i2, e2) ← processFields cfg rest
    .ok (i1 ++ i2, e1 ++ e2)

/-- The parsed derive input (`ConfigTableStruct`, ast/struct_input.rs):
struct identifier, struct-level snec attributes, and named fields. -/
structure StructInput where
  ident : MIdent
  attrs : List SnecAttribute
  fields : List FieldInput
deriving Repr, DecidableEq

/-- The generated output, at the request level: the emission loops
(mod.rs 200-262) map each `RequestedGeneratedEntry` to exactly one marker
type declaration plus one `Entry` implementation, and each
`RequestedGetImpl` to exactly one `Get` implementation bound to its
`markerPath`, so counts and bindings are read off these lists. -/
structure DeriveOutput where
  entryModule : MIdent
  entryModuleVisibility : MVis
  entryModuleAttributes : List MAttrTok
  generatedEntries : List RequestedGeneratedEntry
  getImpls : List RequestedGetImpl
deriving Repr, DecidableEq

/-- `derive_config_table_expand` (mod.rs): resolve struct-level defaults,
process every field's attributes, and assemble the output. -/
def derive_config_table_expand (input : StructInput) : Except DeriveError DeriveOutput := do
  let cfg ← resolveStructLevel input.attrs
  let (impls, entries) ← processFields cfg input.fields
  .ok { entryModule := cfg.entryModule
        entryModuleVisibility := cfg.entryModuleVisibility
        entryModuleAttributes := cfg.entryModuleAttributes
        generatedEntries := entries
        getImpls := impls }

/-! ### Legacy snapshot (macros/src/drv_config_table.rs)

The alternate, single-file version of the derive macro checks struct-level
singleton options for duplication (lines 27-52) before falling back to
defaults; only that check is modelled here. -/

/-- The legacy `expr -> Type` receiver specification
(`AnnotatedReceiverFn`); the field named `annotation` in the source is
rendered `annotatedType`. -/
structure LegacyReceiverFn where
  receiverFn : MPath
  annotatedType : MPath
deriving Repr, DecidableEq

/-- Legacy `StructAttributeOutcome`. -/
inductive LegacyOutcome where
  | setDefaultReceiver (r : LegacyReceiverFn)
  | setGenEntryModule (m : MIdent)
  | ignore
deriving Repr, DecidableEq

/-- Legacy duplication errors (drv_config_table.rs lines 33-36 and 43-46). -/
inductive LegacyError where
  | multipleDefaultReceivers
  | multipleEntryModules
deriving Repr, DecidableEq

/-- The legacy struct-attribute loop (drv_config_table.rs lines 25-52):
setting a singleton option that is already `Some` raises a duplication
error. -/
def legacyScanStruct :
    List LegacyOutcome → Option LegacyReceiverFn → Option MIdent →
    Except LegacyError (Option LegacyReceiverFn × Option MIdent)
  | [], r, m => .ok (r, m)
  | .setDefaultReceiver x :: rest, r, m =>
    match r with
    | none => legacyScanStruct rest (some x) m
    | some _ => .error .multipleDefaultReceivers
  | .setGenEntryModule x :: rest, r, m =>
    match m with
    | none => legacyScanStruct rest r (some x)
    | some _ => .error .multipleEntryModules
  | .ignore :: rest, r, m => legacyScanStruct rest r m

/-! ## Helper lemmas -/

/-- The group part of the case-conversion spec when the conversion starts in
the middle of a group: the first group is kept verbatim, the remaining
groups are capitalized. -/
def camelSpecAux (xs : List Char) : List Char :=
  match splitOnUnderscores xs with
  | [] => []
  | g :: gs => g ++ ((gs.filter (fun h => h ≠ [])).map capitalizeFirst).flatten

theorem splitOnUnderscores_ne_nil (xs : List Char) : splitOnUnderscores xs ≠ [] := by
  cases xs with
  | nil => simp [splitOnUnderscores]
  | cons c rest =>
    by_cases h : c = '_'
    · simp [splitOnUnderscores, h]
    · simp only [splitOnUnderscores, h, if_false]
      cases hs : splitOnUnderscores rest <;> simp

theorem foldl_camel_fold_step (xs : List Char) (acc : List Char) (flag : Bool) :
    (xs.foldl camel_fold_step (acc, flag)).1 = acc ++ camelChars xs flag := by
  induction xs generalizing acc flag with
  | nil => simp [camelChars]
  | cons c rest ih =>
    by_cases h : c = '_'
    · simp [camel_fold_step, camelChars, h, ih]
    · simp [camel_fold_step, camelChars, h, ih]

theorem camelChars_eq_spec (xs : List Char) :
    camelChars xs true
        = (((splitOnUnderscores xs).filter (fun g => g ≠ [])).map capitalizeFirst).flatten
      ∧ camelChars xs false = camelSpecAux xs := by
  induction xs with
  | nil => simp [camelChars, splitOnUnderscores, camelSpecAux]
  | cons c rest ih =>
    by_cases h : c = '_'
    · constructor
      · simpa [camelChars, splitOnUnderscores, h] using ih.1
      · simp only [camelChars, splitOnUnderscores, h, if_true, camelSpecAux]
        obtain ⟨g, gs, hs⟩ : ∃ g gs, splitOnUnderscores rest = g :: gs := by
          cases hsp : splitOnUnderscores rest with
          | nil => exact absurd hsp (splitOnUnderscores_ne_nil rest)
          | cons g gs => exact ⟨g, gs, rfl⟩
        simpa [hs] using ih.1
    · obtain ⟨g, gs, hs⟩ : ∃ g gs, splitOnUnderscores rest = g :: gs := by
        cases hsp : splitOnUnderscores rest with
        | nil => exact absurd hsp (splitOnUnderscores_ne_nil rest)
        | cons g gs => exact ⟨g, gs, rfl⟩
      have hcamelF : camelChars rest false = g ++ ((gs.filter (fun h => h ≠ [])).map capitalizeFirst).flatten := by
        have := ih.2
        rw [camelSpecAux, hs] at this
        exact this
      constructor
      · simp only [camelChars, h, if_false, if_true, splitOnUnderscores, hs,
          List.filter_cons, hcamelF]
        simp [capitalizeFirst]
      · simp only [camelChars, h, if_false, camelSpecAux, splitOnUnderscores, hs, hcamelF]
        simp

theorem camelChars_ne_nil (xs : List Char) (flag : Bool)
    (h : ∃ c ∈ xs, c ≠ '_') : camelChars xs flag ≠ [] := by
  induction xs generalizing flag with
  | nil => simp at h
  | cons c rest ih =>
    by_cases hc : c = '_'
    · have hrest : ∃ d ∈ rest, d ≠ '_' := by
        obtain ⟨d, hd, hdne⟩ := h
        rcases List.mem_cons.mp hd with h1 | h2
        · exact absurd (h1.trans hc) hdne
        · exact ⟨d, h2, hdne⟩
      simpa [camelChars, hc] using ih true hrest
    · simp [camelChars, hc]

theorem snakeToCamelString_eq_camelChars (s : String) :
    snakeToCamelString s = String.mk (camelChars s.data true) := by
  simp [snakeToCamelString, foldl_camel_fold_step]

/-! ## Claim theorems -/

/-- C1: for every handle, every sequence of in-place mutations performed
through a `ModificationScope`, and every exit path from the scope (normal
exit, early return, or unwinding), the receiver is notified exactly once —
the log grows by exactly one entry — and the notification carries the
post-modification value of the field, which is also the value left in
storage. -/
theorem modification_scope_notifies_once_on_every_exit {α : Type}
    (h : HandleState α) (muts : List (α → α)) (exit : ExitKind) :
    (runModificationScope h muts exit).notified
        = h.notified ++ [scopeFinal h.target muts]
      ∧ (runModificationScope h muts exit).target = scopeFinal h.target muts :=
  ⟨rfl, rfl⟩

/-- C2: `Handle::set` with `V2` leaves the storage equal to `V2` and
notifies the receiver exactly once, synchronously within the operation,
with the value read from storage after the mutation — the appended log
entry is the post-operation target itself. -/
theorem set_commits_then_notifies_once {α : Type} (h : HandleState α) (v : α) :
    (Handle.set h v).target = v
      ∧ (Handle.set h v).notified = h.notified ++ [(Handle.set h v).target] :=
  ⟨rfl, rfl⟩

/-- C5 counterexample: a handle over a field holding `0` is `set` to the
very same value `0`; the stored value equals the value already in storage,
yet the receiver is still notified (the log changes), refuting the claim
that no Handle operation notifies in that case — `Handle::set` performs no
old-versus-new comparison. -/
theorem unchanged_value_still_notifies_cex :
    (0 : ℕ) = (HandleState.mk 0 [] : HandleState ℕ).target
      ∧ (Handle.set (HandleState.mk 0 [] : HandleState ℕ) 0).notified
          ≠ (HandleState.mk 0 [] : HandleState ℕ).notified := by
  refine ⟨rfl, ?_⟩
  simp [Handle.set]

/-- C5 amended: a receiver is invoked only by the mutating handle
operations, and deterministically so: every notifying operation (`set`,
`modify_with`, scoped modification) appends exactly one notification
carrying the post-operation value — regardless of whether that value
differs from the previous one, since no equality check is performed — and
every silent operation appends none. -/
theorem notifications_exactly_from_mutating_ops {α : Type}
    (op : HandleOp α) (h : HandleState α) :
    (op.apply h).notified = h.notified ++ op.notifications h.target := by
  cases op <;>
    simp [HandleOp.apply, HandleOp.notifications, Handle.set, Handle.modifyWith,
      runModificationScope, Handle.setSilently, Handle.modifySilently,
      Handle.modifySilentlyWith]

/-- C9: each silent operation (`set_silently`, writes through
`modify_silently`'s returned reference, `modify_silently_with`) leaves the
storage holding the new value while the receiver's notification log is
unchanged — zero notifications are issued. -/
theorem silent_variants_mutate_without_notifying {α : Type}
    (h : HandleState α) (v : α) (f g : α → α) :
    ((Handle.setSilently h v).target = v
        ∧ (Handle.setSilently h v).notified = h.notified)
      ∧ ((Handle.modifySilently h f).target = f h.target
        ∧ (Handle.modifySilently h f).notified = h.notified)
      ∧ ((Handle.modifySilentlyWith h g).target = g h.target
        ∧ (Handle.modifySilentlyWith h g).notified = h.notified) :=
  ⟨⟨rfl, rfl⟩, ⟨rfl, rfl⟩, ⟨rfl, rfl⟩⟩

/-- C8: on identifiers in lower-case-with-underscores form, `snake_to_camel`
computes exactly the spec's case conversion — split on underscores with
consecutive underscores collapsing into one separator, capitalize the first
character of the name and of each group following a separator, leave every
other character unchanged, concatenate — and preserves the identifier's
span. -/
theorem snake_to_camel_matches_case_conversion_spec (i : MIdent)
    (_h : ∀ c ∈ i.name.data, c = '_' ∨ (97 ≤ c.toNat ∧ c.toNat ≤ 122)) :
    snake_to_camel i = { name := snakeToCamelSpecString i.name, span := i.span } := by
  have hname : snakeToCamelString i.name = snakeToCamelSpecString i.name := by
    rw [snakeToCamelString_eq_camelChars, snakeToCamelSpecString,
      (camelChars_eq_spec i.name.data).1]
  simp [snake_to_camel, hname]

/-- Witness for C8: the spec's own example — `in_which_country` (span 5)
converts to `InWhichCountry` with span 5 preserved. -/
theorem snake_to_camel_matches_case_conversion_spec_witness :
    (∀ c ∈ ("in_which_country" : String).data,
        c = '_' ∨ (97 ≤ c.toNat ∧ c.toNat ≤ 122))
      ∧ snake_to_camel ⟨"in_which_country", 5⟩ = ⟨"InWhichCountry", 5⟩ := by
  refine ⟨by decide, ?_⟩
  rw [snake_to_camel_matches_case_conversion_spec ⟨"in_which_country", 5⟩ (by decide)]
  decide

/-- C10: `snake_to_camel`'s name computation returns a nonempty name
whenever the input contains at least one non-underscore character, and
returns the empty name on an all-underscore identifier such as `__` — the
empty name is then fed to `Ident::new`, which aborts with a panic instead
of a located error. -/
theorem snake_to_camel_empty_iff_all_underscores (s : String)
    (h : ∃ c ∈ s.data, c ≠ '_') :
    snakeToCamelString s ≠ "" ∧ snakeToCamelString "__" = "" := by
  constructor
  · rw [snakeToCamelString_eq_camelChars]
    intro heq
    exact camelChars_ne_nil s.data true h (congrArg String.data heq)
  · decide

/-- Witness for C10: the identifier `a_b` contains non-underscore
characters, so its conversion is nonempty, while `__` converts to the empty
name. -/
theorem snake_to_camel_empty_iff_all_underscores_witness :
    (∃ c ∈ ("a_b" : String).data, c ≠ '_')
      ∧ (snakeToCamelString "a_b" ≠ "" ∧ snakeToCamelString "__" = "") :=
  ⟨by decide, snake_to_camel_empty_iff_all_underscores "a_b" (by decide)⟩

/-- C3 counterexample: a struct carrying the entry-module singleton option
twice — `#[snec(entry_module(a))]` followed by `#[snec(entry_module(b))]` —
is not rejected: the derivation succeeds, produces output, and the later
value `b` silently wins, refuting the claim that the derivation fails with
a duplication error and produces no output. -/
theorem duplicate_struct_option_accepted_cex :
    derive_config_table_expand
        { ident := ⟨"S", 0⟩
          attrs := [⟨some [.entryModule ⟨"a", 1⟩]⟩, ⟨some [.entryModule ⟨"b", 2⟩]⟩]
          fields := [] }
      = .ok
        { entryModule := ⟨"b", 2⟩
          entryModuleVisibility := .inherited
          entryModuleAttributes := []
          generatedEntries := []
          getImpls := [] } := by
  rfl

/-- C3 amended: in the current pipeline (mod.rs) setting a struct-level
singleton option (entry-module name or default receiver) more than once is
not an error — the later occurrence silently overwrites the earlier one and
generation proceeds; only the legacy snapshot (drv_config_table.rs) rejects
the second occurrence with a duplication error. -/
theorem duplicate_struct_option_last_write_wins
    (a b : MIdent) (e t e2 t2 : String) (r r2 : LegacyReceiverFn) :
    resolveStructLevel [⟨some [.entryModule a]⟩, ⟨some [.entryModule b]⟩]
        = .ok
          { defaultReceiverExpr := default_receiver_expr
            defaultReceiverType := default_receiver_type
            entryModule := b
            entryModuleVisibility := .inherited
            entryModuleAttributes := [] }
      ∧ resolveStructLevel [⟨some [.receiver e t]⟩, ⟨some [.receiver e2 t2]⟩]
        = .ok
          { defaultReceiverExpr := e2
            defaultReceiverType := t2
            entryModule := default_entry_module
            entryModuleVisibility := .inherited
            entryModuleAttributes := [] }
      ∧ legacyScanStruct [.setGenEntryModule a, .setGenEntryModule b] none none
        = .error .multipleEntryModules
      ∧ legacyScanStruct [.setDefaultReceiver r, .setDefaultReceiver r2] none none
        = .error .multipleDefaultReceivers :=
  ⟨rfl, rfl, rfl, rfl⟩

/-- C4 counterexample: a field whose command set holds both a reuse command
and a generation command, split across two `#[snec(...)]` annotations
(`#[snec(use_entry(M))]` and `#[snec(entry)]`), gets TWO accessor
implementations — one bound to `M`, one bound to the generated
`entries::MyField` — refuting the claim that exactly one accessor
implementation is emitted for such a field. -/
theorem split_competing_commands_two_accessors_cex :
    derive_config_table_expand
        { ident := ⟨"S", 0⟩
          attrs := []
          fields :=
            [⟨⟨"my_field", 3⟩, "u32",
              [⟨some [.useEntry ⟨false, [⟨"M", 4⟩]⟩]⟩, ⟨some [.entry none]⟩]⟩] }
      = .ok
        { entryModule := ⟨"entries", 0⟩
          entryModuleVisibility := .inherited
          entryModuleAttributes := []
          generatedEntries := [⟨⟨"my_field", 3⟩, "u32", ⟨"MyField", 3⟩⟩]
          getImpls :=
            [⟨⟨"my_field", 3⟩, "::snec::EmptyReceiver", "::snec::EmptyReceiver",
              ⟨false, [⟨"M", 4⟩]⟩⟩,
             ⟨⟨"my_field", 3⟩, "::snec::EmptyReceiver", "::snec::EmptyReceiver",
              ⟨false, [⟨"entries", 0⟩, ⟨"MyField", 3⟩]⟩⟩] }
      ∧ (derive_config_table_expand
          { ident := ⟨"S", 0⟩
            attrs := []
            fields :=
              [⟨⟨"my_field", 3⟩, "u32",
                [⟨some [.useEntry ⟨false, [⟨"M", 4⟩]⟩]⟩, ⟨some [.entry none]⟩]⟩] }).map
          (fun o => o.getImpls.length)
        ≠ .ok 1 := by
  refine ⟨rfl, ?_⟩
  have h1 :
      (derive_config_table_expand
          { ident := ⟨"S", 0⟩
            attrs := []
            fields :=
              [⟨⟨"my_field", 3⟩, "u32",
                [⟨some [.useEntry ⟨false, [⟨"M", 4⟩]⟩]⟩, ⟨some [.entry none]⟩]⟩] }).map
        (fun o => o.getImpls.length) = .ok 2 := rfl
  rw [h1]
  simp

/-- C4 amended: when the competing generation and reuse commands appear
within a single `#[snec(...)]` annotation body, exactly one accessor
implementation is emitted for the field and it binds to the marker
reference written last in iteration order — the reuse argument verbatim, or
the entry-module-qualified explicit marker name — while the generation
command still independently emits its marker type; commands split across
separate annotations on the same field each emit their own accessor. -/
theorem competing_commands_single_attribute_last_write_wins
    (cfg : StructConfig) (fid : MIdent) (fty : RType) (n : MIdent) (M : MPath) :
    processField cfg ⟨fid, fty, [⟨some [.entry (some n), .useEntry M]⟩]⟩
        = .ok ([⟨fid, cfg.defaultReceiverExpr, cfg.defaultReceiverType, M⟩],
               [⟨fid, fty, n⟩])
      ∧ processField cfg ⟨fid, fty, [⟨some [.useEntry M, .entry (some n)]⟩]⟩
        = .ok ([⟨fid, cfg.defaultReceiverExpr, cfg.defaultReceiverType,
                 concat_to_path cfg.entryModule n⟩],
               [⟨fid, fty, n⟩]) :=
  ⟨rfl, rfl⟩

/-- The struct-level configuration obtained when no snec attribute is
attached to the struct: all fallbacks from misc.rs. -/
def defaultStructConfig : StructConfig :=
  { defaultReceiverExpr := default_receiver_expr
    defaultReceiverType := default_receiver_type
    entryModule := default_entry_module
    entryModuleVisibility := .inherited
    entryModuleAttributes := [] }

theorem processFields_all_bare (fs : List (MIdent × RType)) :
    processFields defaultStructConfig
        (fs.map (fun p => ⟨p.1, p.2, [⟨none⟩]⟩))
      = .ok
        (fs.map (fun p =>
          ⟨p.1, default_receiver_expr, default_receiver_type,
            concat_to_path default_entry_module (snake_to_camel p.1)⟩),
         fs.map (fun p => ⟨p.1, p.2, snake_to_camel p.1⟩)) := by
  induction fs with
  | nil => rfl
  | cons p rest ih =>
    have hfield :
        processField defaultStructConfig ⟨p.1, p.2, [⟨none⟩]⟩
          = .ok
            ([⟨p.1, default_receiver_expr, default_receiver_type,
                concat_to_path default_entry_module (snake_to_camel p.1)⟩],
             [⟨p.1, p.2, snake_to_camel p.1⟩]) := rfl
    simp only [List.map_cons, processFields, hfield, ih, Except.bind]
    rfl

/-- C6: a struct with `N` named fields, each bearing exactly one bare
`#[snec]` annotation and no struct-level options, derives successfully and
the output contains exactly `N` marker-generation requests (one marker type
each) and exactly `N` accessor requests (one `Get` implementation each);
each accessor binds to the path `entries::CamelCase(field)` — the
case-converted field name qualified by the (default) entry module. -/
theorem bare_annotations_generate_marker_and_accessor_per_field
    (sid : MIdent) (fs : List (MIdent × RType)) :
    derive_config_table_expand
        { ident := sid
          attrs := []
          fields := fs.map (fun p => ⟨p.1, p.2, [⟨none⟩]⟩) }
      = .ok
        { entryModule := default_entry_module
          entryModuleVisibility := .inherited
          entryModuleAttributes := []
          generatedEntries := fs.map (fun p => ⟨p.1, p.2, snake_to_camel p.1⟩)
          getImpls := fs.map (fun p =>
            ⟨p.1, default_receiver_expr, default_receiver_type,
              concat_to_path default_entry_module (snake_to_camel p.1)⟩) }
      ∧ (derive_config_table_expand
          { ident := sid
            attrs := []
            fields := fs.map (fun p => ⟨p.1, p.2, [⟨none⟩]⟩) }).map
          (fun o => (o.generatedEntries.length, o.getImpls.length))
        = .ok (fs.length, fs.length) := by
  have hmain :
      derive_config_table_expand
          { ident := sid
            attrs := []
            fields := fs.map (fun p => ⟨p.1, p.2, [⟨none⟩]⟩) }
        = .ok
          { entryModule := default_entry_module
            entryModuleVisibility := .inherited
            entryModuleAttributes := []
            generatedEntries := fs.map (fun p => ⟨p.1, p.2, snake_to_camel p.1⟩)
            getImpls := fs.map (fun p =>
              ⟨p.1, default_receiver_expr, default_receiver_type,
                concat_to_path default_entry_module (snake_to_camel p.1)⟩) } := by
    have hcfg : resolveStructLevel [] = .ok defaultStructConfig := rfl
    simp only [derive_config_table_expand, hcfg, bind, Except.bind,
      processFields_all_bare]
    rfl
  refine ⟨hmain, ?_⟩
  rw [hmain]
  simp [Except.map]

/-- C7: a field bearing only `use_entry(M)` produces no marker-generation
request (so no new marker type is emitted for it), and its accessor binds
to the path `M` exactly as written — no case conversion and no entry-module
qualification is applied to it. -/
theorem use_entry_binds_verbatim_no_marker
    (cfg : StructConfig) (fid : MIdent) (fty : RType) (M : MPath) :
    processField cfg ⟨fid, fty, [⟨some [.useEntry M]⟩]⟩
      = .ok ([⟨fid, cfg.defaultReceiverExpr, cfg.defaultReceiverType, M⟩], []) :=
  rfl

end Snec
